import Mathlib

/-!
Verification development for the Bookmark Manager server.

The server keeps an in-memory list of bookmark records and exposes
list / create / update / delete operations plus a best-effort metadata
fetch.  This file gives a shallow embedding of that code: JSON payload
field values are modelled explicitly (including JSON `null` and the
distinction between an absent key and a supplied value, because the
create path gates checks on JS truthiness while the update path gates
them on definedness), the validators are transcribed clause by clause,
and the route handlers become pure state-passing functions returning
result values in place of HTTP responses.
-/

namespace BookmarkManager

/-- Value supplied for the `description` field of a request body:
the key may be absent (JS `undefined`), explicitly JSON `null`, or a
string.  -/
inductive DescField where
  | undef
  | null
  | str (s : String)
deriving DecidableEq, Repr, Inhabited

/-- Value supplied for the `tags` field of a request body: absent,
JSON `null`, an array of strings (the declared schema), or some other
non-array JSON value carrying its JS truthiness (for example `false`
and `0` are falsy, a non-empty string is truthy).  Array elements are
restricted to strings, matching the declared payload schema.  -/
inductive TagsField where
  | undef
  | null
  | arr (ts : List String)
  | other (truthy : Bool)
deriving DecidableEq, Repr, Inhabited

/-- JS truthiness of a `description` value: only a non-empty string is
truthy.  -/
def DescField.truthy : DescField → Bool
  | .str s => s ≠ ""
  | _ => false

/-- Whether the `description` key was supplied at all (`!== undefined`). -/
def DescField.defined : DescField → Bool
  | .undef => false
  | _ => true

/-- JS truthiness of a `tags` value: every array (even `[]`) is truthy,
`null` is falsy, other values carry their own truthiness.  -/
def TagsField.truthy : TagsField → Bool
  | .undef => false
  | .null => false
  | .arr _ => true
  | .other t => t

/-- Whether the `tags` key was supplied at all (`!== undefined`). -/
def TagsField.defined : TagsField → Bool
  | .undef => false
  | _ => true

/-- `Array.isArray` on a `tags` value. -/
def TagsField.isArray : TagsField → Bool
  | .arr _ => true
  | _ => false

/-- A request body for `POST /bookmarks` or `PUT /bookmarks/:id`.
`url` and `title` are either absent or strings; `description` and
`tags` admit the JSON values the routes actually inspect.  -/
structure Payload where
  url : Option String
  title : Option String
  description : DescField
  tags : TagsField
deriving DecidableEq, Repr, Inhabited

/-- A stored bookmark record.  `description` and `tags` keep the full
field-value types: the update path stores supplied values verbatim, so
a stored description can be JSON `null` or the empty string.  A field
value of `undef` means the key is omitted from the serialized JSON
object.  -/
structure Bookmark where
  id : String
  url : String
  title : String
  description : DescField
  tags : TagsField
  createdAt : String
deriving DecidableEq, Repr, Inhabited

/-- Character allowed in a URL scheme after the leading letter. -/
def isSchemeChar (c : Char) : Bool :=
  c.isAlphanum || c = '+' || c = '-' || c = '.'

/-- Scans for a scheme: letters/digits/`+`/`-`/`.` up to a colon. -/
def schemeTail : List Char → Bool
  | [] => false
  | c :: rest => if c = ':' then true else isSchemeChar c && schemeTail rest

/-- `isValidUrl` from the server: whether `new URL(url)` succeeds.
Modelled as the scheme-prefix requirement of the WHATWG parser (a
leading ASCII letter, scheme characters, then a colon); the host
requirements of special schemes are not modelled, and no claim depends
on them.  Both the implementation validator and the reference
validator below use this same predicate, so the comparison between
them is independent of it.  -/
def isValidUrl (url : String) : Bool :=
  match url.toList with
  | [] => false
  | c :: rest => c.isAlpha && schemeTail rest

/-- `toLowerCase`, modelled character by character over the ASCII
range and kept structurally recursive so that concrete instances
evaluate.  -/
def jsToLower (s : String) : String := String.mk (s.data.map Char.toLower)

/-- The url block of the create validator: `if (!url)` then required,
`else if (!isValidUrl(url))` then invalid.  An absent url and a
supplied empty string are both falsy, so both report "URL is
required".  -/
def urlErrorsCreate (url : Option String) : List String :=
  match url with
  | none => ["URL is required"]
  | some u =>
    if u = "" then ["URL is required"]
    else if ¬ isValidUrl u then ["URL must be valid"]
    else []

/-- The title checks run on a supplied title, shared by create and
update: `if (!title)` then required, `else if (title.length > 200)`
then too long.  -/
def titleChain (t : String) : List String :=
  if t = "" then ["Title is required"]
  else if t.length > 200 then ["Title must be max 200 characters"]
  else []

/-- The title block of the create validator: an absent title is also
"Title is required".  -/
def titleErrorsCreate (title : Option String) : List String :=
  match title with
  | none => ["Title is required"]
  | some t => titleChain t

/-- The description block, identical on create and update:
`if (description && description.length > 500)`.  Only a truthy
(non-empty string) description is measured.  -/
def descErrors (d : DescField) : List String :=
  match d with
  | .str s => if s ≠ "" ∧ s.length > 500 then ["Description must be max 500 characters"] else []
  | _ => []

/-- The checks run on an array tags value, in source order: more than
five tags, then any tag differing from its own lowercase form.  The
sub-checks are mutually exclusive.  -/
def tagChain (ts : List String) : List String :=
  if ts.length > 5 then ["Maximum 5 tags allowed"]
  else if ts.any (fun t => t ≠ jsToLower t) then ["Tags must be lowercase"]
  else []

/-- The tags block of the create validator, gated by `if (tags)` —
JS truthiness of the supplied value: a falsy supplied value (JSON
`null`, `false`, `0`, `""`) is skipped entirely.  -/
def tagErrorsCreate (g : TagsField) : List String :=
  if TagsField.truthy g then
    match g with
    | .arr ts => tagChain ts
    | _ => ["Tags must be an array"]
  else []

/-- The url block of the update validator: only `if (!isValidUrl(url))`
runs when the url is supplied — no emptiness check.  -/
def urlErrorsUpdate (url : Option String) : List String :=
  match url with
  | none => []
  | some u => if ¬ isValidUrl u then ["URL must be valid"] else []

/-- The title block of the update validator: checked only when
supplied, and then exactly the shared chain.  -/
def titleErrorsUpdate (title : Option String) : List String :=
  match title with
  | none => []
  | some t => titleChain t

/-- The tags block of the update validator, gated by
`tags !== undefined`: every supplied value is checked, including falsy
ones such as `null`.  -/
def tagErrorsUpdate (g : TagsField) : List String :=
  if TagsField.defined g then
    match g with
    | .arr ts => tagChain ts
    | _ => ["Tags must be an array"]
  else []

/-- The create-mode validator of `POST /bookmarks`: the four field
blocks in source order, collected without cross-field
short-circuiting.  -/
def validateCreate (p : Payload) : List String :=
  urlErrorsCreate p.url ++ titleErrorsCreate p.title ++
    descErrors p.description ++ tagErrorsCreate p.tags

/-- The update-mode validator of `PUT /bookmarks/:id`: each field
checked only when supplied.  -/
def validateUpdate (p : Payload) : List String :=
  urlErrorsUpdate p.url ++ titleErrorsUpdate p.title ++
    descErrors p.description ++ tagErrorsUpdate p.tags

/-- Outcome of `POST /bookmarks`: `ok` is the 201 response payload,
`invalid` the 400 response with the joined error message.  -/
inductive CreateResult where
  | ok (b : Bookmark)
  | invalid (err : String)
deriving DecidableEq, Repr

/-- Outcome of `PUT /bookmarks/:id`: 200, 400, or 404.  -/
inductive UpdateResult where
  | ok (b : Bookmark)
  | invalid (err : String)
  | notFound
deriving DecidableEq, Repr

/-- Outcome of `DELETE /bookmarks/:id`: 200 with the removed record,
or 404.  -/
inductive DeleteResult where
  | ok (b : Bookmark)
  | notFound
deriving DecidableEq, Repr

/-- `Array.prototype.findIndex`, with `none` in place of `-1`.  -/
def findIndex (p : α → Bool) : List α → Option Nat
  | [] => none
  | a :: rest => if p a then some 0 else (findIndex p rest).map (· + 1)

/-- The record built by a successful create: the generated id and
timestamp, the validated url and title, and `description || undefined`
and `tags || undefined` — falsy supplied values are stored as omitted
fields.  -/
def newBookmark (p : Payload) (newId now : String) : Bookmark :=
  { id := newId
    url := p.url.getD ""
    title := p.title.getD ""
    description := if DescField.truthy p.description then p.description else .undef
    tags := if TagsField.truthy p.tags then p.tags else .undef
    createdAt := now }

/-- POST /bookmarks.  `newId` and `now` are the values produced by
`uuidv4()` and `new Date().toISOString()`, made explicit parameters.
On success the new record is appended; on validation failure the state
is returned as is together with the joined message.  -/
def create (bs : List Bookmark) (p : Payload) (newId now : String) :
    List Bookmark × CreateResult :=
  let errors := validateCreate p
  if errors.isEmpty then
    (bs ++ [newBookmark p newId now], .ok (newBookmark p newId now))
  else (bs, .invalid (String.intercalate ", " errors))

/-- The merged record of a successful update: the spread of the
existing record (so `id` and `createdAt` are untouched) with each
field taken verbatim from the payload when supplied (`!== undefined`)
and kept otherwise.  -/
def mergeBookmark (old : Bookmark) (p : Payload) : Bookmark :=
  { old with
    url := match p.url with | some u => u | none => old.url
    title := match p.title with | some t => t | none => old.title
    description := if DescField.defined p.description then p.description else old.description
    tags := if TagsField.defined p.tags then p.tags else old.tags }

/-- PUT /bookmarks/:id.  Lookup first (404 before any validation),
then validation (400 leaves the state untouched), then the merge
written back at the found index.  -/
def update (bs : List Bookmark) (id : String) (p : Payload) :
    List Bookmark × UpdateResult :=
  match findIndex (fun b => b.id = id) bs with
  | none => (bs, .notFound)
  | some i =>
    let errors := validateUpdate p
    if errors.isEmpty then
      (bs.set i (mergeBookmark (bs.getD i default) p),
       .ok (mergeBookmark (bs.getD i default) p))
    else (bs, .invalid (String.intercalate ", " errors))

/-- DELETE /bookmarks/:id: lookup, then `splice(index, 1)`, returning
the removed record.  -/
def deleteOp (bs : List Bookmark) (id : String) : List Bookmark × DeleteResult :=
  match findIndex (fun b => b.id = id) bs with
  | none => (bs, .notFound)
  | some i => (bs.eraseIdx i, .ok (bs.getD i default))

/-- `bookmark.tags && bookmark.tags.includes(needle)` from the list
route.  A falsy `tags` value short-circuits to no match; a non-array
truthy value never occurs in a stored record (creation and update
validation forbid it) and is modelled as non-matching.  -/
def tagMatches (t : TagsField) (needle : String) : Bool :=
  match t with
  | .arr ts => ts.contains needle
  | _ => false

/-- GET /bookmarks.  `tag` is the query parameter; the route filters
only when `tag` is truthy (a supplied empty string behaves like no
filter), lowercasing the filter value.  No pagination or sorting.  -/
def listBookmarks (bs : List Bookmark) (tag : Option String) : List Bookmark :=
  match tag with
  | none => bs
  | some t =>
    if t = "" then bs
    else bs.filter (fun b => tagMatches b.tags (jsToLower t))

/-- Outcome of the external fetch inside `fetchMetadata`: the network
call threw (error or timeout), or the page was fetched and the title
regex either matched with the given capture group or did not match.  -/
inductive FetchResult where
  | fetchError
  | fetched (titleMatch : Option String)
deriving DecidableEq, Repr

/-- `fetchMetadata`: a thrown fetch is swallowed to `null`; otherwise
the captured title is trimmed, and `title || null` turns an empty
extraction into `null`.  -/
def fetchMetadata : FetchResult → Option String
  | .fetchError => none
  | .fetched m =>
    let title := match m with | some s => s.trim | none => ""
    if title = "" then none else some title

/-- JS `a || b` on a nullable string: `none` (null) and the empty
string fall through to the default.  -/
def jsOrStr (a : Option String) (b : String) : String :=
  match a with
  | none => b
  | some s => if s = "" then b else s

/-- Response of GET /bookmarks/metadata: 400 with an error message, or
200 with `data.title`, a nullable JSON slot (`none` would serialize as
`null`).  -/
inductive MetaResponse where
  | badRequest (err : String)
  | ok (title : Option String)
deriving DecidableEq, Repr

/-- GET /bookmarks/metadata: a missing, empty or invalid `url` query
parameter is a 400; otherwise the route answers 200 with
`title || 'Unable to fetch title'`.  -/
def getMetadata (url : Option String) (r : FetchResult) : MetaResponse :=
  match url with
  | none => .badRequest "Valid URL is required"
  | some u =>
    if u = "" then .badRequest "Valid URL is required"
    else if ¬ isValidUrl u then .badRequest "Valid URL is required"
    else .ok (some (jsOrStr (fetchMetadata r) "Unable to fetch title"))

/-- The five seeded bookmarks the server starts with.  Their ids and
timestamps come from `uuidv4()` and `new Date()` at start-up and are
passed in; urls, titles, descriptions and tags are the literals from
the source (one seed description is reproduced without its
apostrophe).  -/
def seedBookmarks (ids times : List String) : List Bookmark :=
  [ { id := ids.getD 0 "", url := "https://react.dev", title := "React Documentation",
      description := .str "Official React documentation and tutorials",
      tags := .arr ["react", "javascript", "frontend"], createdAt := times.getD 0 "" },
    { id := ids.getD 1 "", url := "https://nodejs.org", title := "Node.js",
      description := .str "JavaScript runtime built on the Chrome V8 engine",
      tags := .arr ["nodejs", "javascript", "backend"], createdAt := times.getD 1 "" },
    { id := ids.getD 2 "", url := "https://tailwindcss.com", title := "Tailwind CSS",
      description := .str "A utility-first CSS framework",
      tags := .arr ["css", "tailwind", "frontend"], createdAt := times.getD 2 "" },
    { id := ids.getD 3 "", url := "https://expressjs.com", title := "Express.js",
      description := .str "Fast, unopinionated web framework for Node.js",
      tags := .arr ["express", "nodejs", "backend"], createdAt := times.getD 3 "" },
    { id := ids.getD 4 "", url := "https://vitejs.dev", title := "Vite",
      description := .str "Next generation frontend tooling",
      tags := .arr ["vite", "build-tool", "frontend"], createdAt := times.getD 4 "" } ]

/-- Store states reachable from the seeded collection under any
sequence of create, update and delete calls.  -/
inductive Reachable : List Bookmark → Prop where
  | seed (ids times : List String) : Reachable (seedBookmarks ids times)
  | createStep (bs : List Bookmark) (p : Payload) (newId now : String) :
      Reachable bs → Reachable (create bs p newId now).1
  | updateStep (bs : List Bookmark) (id : String) (p : Payload) :
      Reachable bs → Reachable (update bs id p).1
  | deleteStep (bs : List Bookmark) (id : String) :
      Reachable bs → Reachable (deleteOp bs id).1

/-- Well-formedness of a stored `tags` value: absent, or an array of
at most five tags each equal to its own lowercase form.  -/
def tagsWF (t : TagsField) : Prop :=
  t = .undef ∨ ∃ ts, t = .arr ts ∧ ts.length ≤ 5 ∧ ∀ s ∈ ts, jsToLower s = s

/-- The optional fields of a record are never JSON `null`.  -/
def noNullOpt (b : Bookmark) : Prop :=
  b.description ≠ .null ∧ b.tags ≠ .null

/-- The tags rule of §4.1 of the specification: the block runs
whenever the key is present, with the three mutually exclusive
sub-checks in the stated order.  -/
def specTagErrors (g : TagsField) : List String :=
  match g with
  | .undef => []
  | .arr ts => tagChain ts
  | _ => ["Tags must be an array"]

/-- Reference definition of the create-mode validator, transcribed
from §4.1 of the specification: the four rules in field order, all
triggered messages collected.  Kept separate from `validateCreate`
(the implementation) so the two can be compared.  -/
def specValidateCreate (p : Payload) : List String :=
  urlErrorsCreate p.url ++ titleErrorsCreate p.title ++
    descErrors p.description ++ specTagErrors p.tags

/-- A sample stored record used by concrete instantiations.  -/
def bmX : Bookmark :=
  { id := "1", url := "https://example.com", title := "T",
    description := .str "d", tags := .arr ["x"], createdAt := "t0" }

/-- A sample valid create payload used by concrete instantiations.  -/
def pSample : Payload :=
  ⟨some "https://example.com", some "Test", .str "A test bookmark", .arr ["test", "example"]⟩

/-! ### Helper lemmas -/

theorem findIndex_eq_none_iff (p : α → Bool) (l : List α) :
    findIndex p l = none ↔ ∀ a ∈ l, p a = false := by
  induction l with
  | nil => simp [findIndex]
  | cons a rest ih =>
    simp only [findIndex]
    by_cases h : p a
    · simp [h]
    · simp [h, Option.map_eq_none', ih]

theorem findIndex_lt_length {p : α → Bool} {l : List α} {i : Nat}
    (h : findIndex p l = some i) : i < l.length := by
  induction l generalizing i with
  | nil => simp [findIndex] at h
  | cons a rest ih =>
    rw [findIndex] at h
    by_cases hpa : p a
    · rw [if_pos hpa] at h
      obtain rfl : (0 : Nat) = i := by injection h
      simp
    · rw [if_neg hpa, Option.map_eq_some'] at h
      obtain ⟨j, hj, rfl⟩ := h
      have := ih hj
      simp only [List.length_cons]
      omega

theorem getD_mem : ∀ (l : List α) (i : Nat) (d : α), i < l.length → l.getD i d ∈ l
  | a :: _, 0, _, _ => by simp
  | a :: rest, i + 1, d, h => by
    simp only [List.getD_cons_succ]
    exact List.mem_cons_of_mem _ (getD_mem rest i d (by simpa using h))

/-- If the url block of create validation is silent, the url was
supplied, non-empty and syntactically valid.  -/
theorem urlErrorsCreate_eq_nil {u : Option String} (h : urlErrorsCreate u = []) :
    ∃ s, u = some s ∧ s ≠ "" ∧ isValidUrl s = true := by
  cases u with
  | none => cases h
  | some s =>
    have h2 : (if s = "" then ["URL is required"]
               else if ¬ isValidUrl s then ["URL must be valid"]
               else []) = ([] : List String) := h
    by_cases he : s = ""
    · rw [if_pos he] at h2; cases h2
    · rw [if_neg he] at h2
      by_cases hv : isValidUrl s
      · exact ⟨s, rfl, he, hv⟩
      · rw [if_pos hv] at h2; cases h2

/-- If the title block of create validation is silent, the title was
supplied.  -/
theorem titleErrorsCreate_eq_nil {t : Option String} (h : titleErrorsCreate t = []) :
    ∃ s, t = some s := by
  cases t with
  | none => cases h
  | some s => exact ⟨s, rfl⟩

/-- A silent tag chain means at most five tags, all lowercase.  -/
theorem tagChain_eq_nil {ts : List String} (h : tagChain ts = []) :
    ts.length ≤ 5 ∧ ∀ s ∈ ts, jsToLower s = s := by
  unfold tagChain at h
  have hlen : ¬ ts.length > 5 := fun hgt => by rw [if_pos hgt] at h; cases h
  rw [if_neg hlen] at h
  have hany : ¬ (ts.any (fun t => t ≠ jsToLower t) = true) := fun ha => by
    rw [if_pos ha] at h; cases h
  simp only [List.any_eq_true, decide_eq_true_eq, not_exists, not_and, not_not] at hany
  exact ⟨by omega, fun s hs => (hany s hs).symm⟩

/-- If the create tags block is silent on a truthy tags value, that
value is a well-formed array.  -/
theorem tagErrorsCreate_eq_nil {g : TagsField} (h : tagErrorsCreate g = [])
    (ht : TagsField.truthy g = true) :
    ∃ ts, g = .arr ts ∧ ts.length ≤ 5 ∧ ∀ s ∈ ts, jsToLower s = s := by
  unfold tagErrorsCreate at h
  rw [if_pos ht] at h
  cases g with
  | arr ts => exact ⟨ts, rfl, tagChain_eq_nil h⟩
  | undef => cases ht
  | null => cases ht
  | other t => cases h

/-- If the update tags block is silent on a supplied tags value, that
value is a well-formed array.  -/
theorem tagErrorsUpdate_eq_nil {g : TagsField} (h : tagErrorsUpdate g = [])
    (ht : TagsField.defined g = true) :
    ∃ ts, g = .arr ts ∧ ts.length ≤ 5 ∧ ∀ s ∈ ts, jsToLower s = s := by
  unfold tagErrorsUpdate at h
  rw [if_pos ht] at h
  cases g with
  | arr ts => exact ⟨ts, rfl, tagChain_eq_nil h⟩
  | undef => cases ht
  | null => cases h
  | other t => cases h

/-- Decomposition of create validation success into silent blocks.  -/
theorem validateCreate_eq_nil {p : Payload} (h : validateCreate p = []) :
    urlErrorsCreate p.url = [] ∧ titleErrorsCreate p.title = [] ∧
    descErrors p.description = [] ∧ tagErrorsCreate p.tags = [] := by
  unfold validateCreate at h
  rw [List.append_eq_nil, List.append_eq_nil, List.append_eq_nil] at h
  exact ⟨h.1.1.1, h.1.1.2, h.1.2, h.2⟩

/-- Decomposition of update validation success into silent blocks.  -/
theorem validateUpdate_eq_nil {p : Payload} (h : validateUpdate p = []) :
    urlErrorsUpdate p.url = [] ∧ titleErrorsUpdate p.title = [] ∧
    descErrors p.description = [] ∧ tagErrorsUpdate p.tags = [] := by
  unfold validateUpdate at h
  rw [List.append_eq_nil, List.append_eq_nil, List.append_eq_nil] at h
  exact ⟨h.1.1.1, h.1.1.2, h.1.2, h.2⟩

/-- The state component of create, in closed form.  -/
theorem create_fst (bs : List Bookmark) (p : Payload) (newId now : String) :
    (create bs p newId now).1 =
      if (validateCreate p).isEmpty then bs ++ [newBookmark p newId now] else bs := by
  by_cases hv : (validateCreate p).isEmpty <;> simp [create, hv]

/-- Inversion of a successful create.  -/
theorem create_ok_inv {bs : List Bookmark} {p : Payload} {newId now : String}
    {b' : Bookmark} (h : (create bs p newId now).2 = .ok b') :
    validateCreate p = [] ∧ b' = newBookmark p newId now ∧
    (create bs p newId now).1 = bs ++ [b'] := by
  by_cases hv : (validateCreate p).isEmpty
  · have hb : b' = newBookmark p newId now := by
      have h2 := h
      simp [create, hv] at h2
      exact h2.symm
    exact ⟨List.isEmpty_iff.mp hv, hb, by simp [create, hv, hb]⟩
  · simp [create, hv] at h

/-- Inversion of a successful update.  -/
theorem update_ok_inv {bs : List Bookmark} {idv : String} {p : Payload}
    {b' : Bookmark} (h : (update bs idv p).2 = .ok b') :
    ∃ i, findIndex (fun b => b.id = idv) bs = some i ∧ validateUpdate p = [] ∧
      b' = mergeBookmark (bs.getD i default) p ∧
      (update bs idv p).1 = bs.set i b' := by
  rcases hfi : findIndex (fun b => b.id = idv) bs with _ | i
  · simp [update, hfi] at h
  · by_cases hv : (validateUpdate p).isEmpty
    · have hb : b' = mergeBookmark (bs.getD i default) p := by
        have h2 := h
        simp [update, hfi, hv] at h2
        rw [List.getD_eq_getElem?_getD]
        exact h2.symm
      exact ⟨i, hfi, List.isEmpty_iff.mp hv, hb, by simp [update, hfi, hv, hb]⟩
    · simp [update, hfi, hv] at h

/-- Inversion of a successful delete.  -/
theorem deleteOp_ok_inv {bs : List Bookmark} {idv : String} {b' : Bookmark}
    (h : (deleteOp bs idv).2 = .ok b') :
    ∃ i, findIndex (fun b => b.id = idv) bs = some i ∧ b' = bs.getD i default ∧
      (deleteOp bs idv).1 = bs.eraseIdx i := by
  rcases hfi : findIndex (fun b => b.id = idv) bs with _ | i
  · simp [deleteOp, hfi] at h
  · have hb : b' = bs.getD i default := by
      have h2 := h
      simp [deleteOp, hfi] at h2
      rw [List.getD_eq_getElem?_getD]
      exact h2.symm
    exact ⟨i, hfi, hb, by simp [deleteOp, hfi]⟩

/-- The state component of update, in closed form.  -/
theorem update_fst (bs : List Bookmark) (idv : String) (p : Payload) :
    (update bs idv p).1 =
      match findIndex (fun b => b.id = idv) bs with
      | none => bs
      | some i =>
        if (validateUpdate p).isEmpty
        then bs.set i (mergeBookmark (bs.getD i default) p)
        else bs := by
  rcases hfi : findIndex (fun b => b.id = idv) bs with _ | i
  · simp [update, hfi]
  · by_cases hv : (validateUpdate p).isEmpty <;> simp [update, hfi, hv]

/-- The state component of delete, in closed form.  -/
theorem deleteOp_fst (bs : List Bookmark) (idv : String) :
    (deleteOp bs idv).1 =
      match findIndex (fun b => b.id = idv) bs with
      | none => bs
      | some i => bs.eraseIdx i := by
  rcases hfi : findIndex (fun b => b.id = idv) bs with _ | i <;> simp [deleteOp, hfi]

/-- A listed bookmark comes from the store.  -/
theorem mem_of_mem_listBookmarks {bs : List Bookmark} {tag : Option String}
    {b : Bookmark} (h : b ∈ listBookmarks bs tag) : b ∈ bs := by
  cases tag with
  | none => exact h
  | some t =>
    have h2 : b ∈ (if t = "" then bs
                   else bs.filter (fun b => tagMatches b.tags (jsToLower t))) := h
    by_cases ht : t = ""
    · rw [if_pos ht] at h2; exact h2
    · rw [if_neg ht] at h2; exact List.mem_of_mem_filter h2

/-- Everything the url block of the update validator can emit, and
when.  -/
theorem mem_urlErrorsUpdate {u : Option String} {s : String} :
    s ∈ urlErrorsUpdate u ↔
      s = "URL must be valid" ∧ ∃ x, u = some x ∧ isValidUrl x = false := by
  cases u with
  | none => simp [urlErrorsUpdate]
  | some x =>
    by_cases hv : isValidUrl x
    · simp [urlErrorsUpdate, hv]
    · have hv2 : isValidUrl x = false := by
        cases hx : isValidUrl x
        · rfl
        · exact absurd hx hv
      simp [urlErrorsUpdate, hv, hv2]

/-- Everything the title block of the update validator can emit.  -/
theorem mem_titleErrorsUpdate {t : Option String} {s : String}
    (h : s ∈ titleErrorsUpdate t) :
    s = "Title is required" ∨ s = "Title must be max 200 characters" := by
  cases t with
  | none => cases h
  | some x =>
    have h2 : s ∈ titleChain x := h
    unfold titleChain at h2
    by_cases h1 : x = ""
    · rw [if_pos h1] at h2
      simp at h2
      exact Or.inl h2
    · rw [if_neg h1] at h2
      by_cases hlen : x.length > 200
      · rw [if_pos hlen] at h2
        simp at h2
        exact Or.inr h2
      · rw [if_neg hlen] at h2
        cases h2

/-- Everything the description block can emit.  -/
theorem mem_descErrors {d : DescField} {s : String} (h : s ∈ descErrors d) :
    s = "Description must be max 500 characters" := by
  cases d with
  | undef => cases h
  | null => cases h
  | str x =>
    have h2 : s ∈ (if x ≠ "" ∧ x.length > 500
                   then ["Description must be max 500 characters"] else []) := h
    by_cases hc : x ≠ "" ∧ x.length > 500
    · rw [if_pos hc] at h2
      simpa using h2
    · rw [if_neg hc] at h2
      cases h2

/-- Everything the array tag chain can emit.  -/
theorem mem_tagChain {ts : List String} {s : String} (h : s ∈ tagChain ts) :
    s = "Maximum 5 tags allowed" ∨ s = "Tags must be lowercase" := by
  unfold tagChain at h
  by_cases h1 : ts.length > 5
  · rw [if_pos h1] at h
    simp at h
    exact Or.inl h
  · rw [if_neg h1] at h
    by_cases h2 : ts.any (fun t => t ≠ jsToLower t) = true
    · rw [if_pos h2] at h
      simp at h
      exact Or.inr h
    · rw [if_neg h2] at h
      cases h

/-- Everything the tags block of the update validator can emit.  -/
theorem mem_tagErrorsUpdate {g : TagsField} {s : String} (h : s ∈ tagErrorsUpdate g) :
    s = "Tags must be an array" ∨ s = "Maximum 5 tags allowed" ∨
      s = "Tags must be lowercase" := by
  unfold tagErrorsUpdate at h
  by_cases hd : TagsField.defined g
  · rw [if_pos hd] at h
    cases g with
    | arr ts => exact Or.inr (mem_tagChain h)
    | undef => cases hd
    | null => exact Or.inl (by simpa using h)
    | other tb => exact Or.inl (by simpa using h)
  · rw [if_neg hd] at h
    cases h

/-- Membership in update validation output splits over the four
blocks.  -/
theorem mem_validateUpdate (p : Payload) (s : String) :
    s ∈ validateUpdate p ↔
      s ∈ urlErrorsUpdate p.url ∨ s ∈ titleErrorsUpdate p.title ∨
      s ∈ descErrors p.description ∨ s ∈ tagErrorsUpdate p.tags := by
  unfold validateUpdate
  simp [List.mem_append, or_assoc]

/-! ### Claim theorems -/

/-- C1, counterexample: the create route with a supplied falsy
non-array tags value (for example JSON `false`) reports no error at
all, while the §4.1 reference validator reports "Tags must be an
array" for any supplied non-array tags value; so the two validators
are not equal on every payload.  -/
theorem create_validator_spec_cex :
    validateCreate ⟨some "https://example.com", some "Test", .undef, .other false⟩ = [] ∧
    specValidateCreate ⟨some "https://example.com", some "Test", .undef, .other false⟩
      = ["Tags must be an array"] :=
  ⟨rfl, rfl⟩

/-- C1, amended: the create-mode validator equals the §4.1 reference
definition on every payload whose tags field is absent or JS-truthy
(in particular on every payload whose tags field is absent or an
array); a supplied falsy tags value is skipped entirely.  Field order,
tag sub-check exclusivity and cross-field collection are as written in
the two definitions, and create fails with the joined message exactly
when the message list is non-empty.  -/
theorem create_validator_matches_spec (p : Payload) (bs : List Bookmark)
    (newId now : String) :
    (p.tags = .undef ∨ TagsField.truthy p.tags = true →
        validateCreate p = specValidateCreate p) ∧
    ((∃ e, (create bs p newId now).2 = .invalid e) ↔ validateCreate p ≠ []) ∧
    (validateCreate p ≠ [] →
        (create bs p newId now).2 = .invalid (String.intercalate ", " (validateCreate p))) := by
  refine ⟨fun h => ?_, ?_, fun h => ?_⟩
  · have htag : tagErrorsCreate p.tags = specTagErrors p.tags := by
      rcases h with h | h
      · rw [h]
        rfl
      · cases hcase : p.tags with
        | undef => rfl
        | arr ts => rfl
        | null => rw [hcase] at h; cases h
        | other t =>
          rw [hcase] at h
          simp only [TagsField.truthy] at h
          subst h
          rfl
    unfold validateCreate specValidateCreate
    rw [htag]
  · by_cases hv : (validateCreate p).isEmpty
    · have hnil : validateCreate p = [] := List.isEmpty_iff.mp hv
      simp [create, hv, hnil]
    · have hnil : validateCreate p ≠ [] := by
        intro hc
        exact hv (List.isEmpty_iff.mpr hc)
      simp [create, hv, hnil]
  · have hv : ¬ (validateCreate p).isEmpty := by
      intro hc
      exact h (List.isEmpty_iff.mp hc)
    simp [create, hv]

/-- C1 witness: on a payload with array tags the two validators agree,
and on the empty payload create fails with the joined two-message
report.  -/
theorem create_validator_matches_spec_witness :
    validateCreate ⟨some "https://example.com", some "Test", .undef, .arr ["react"]⟩
      = specValidateCreate ⟨some "https://example.com", some "Test", .undef, .arr ["react"]⟩ ∧
    (create [] ⟨none, none, .undef, .undef⟩ "i" "t").2
      = .invalid "URL is required, Title is required" := by
  constructor
  · exact (create_validator_matches_spec
      ⟨some "https://example.com", some "Test", .undef, .arr ["react"]⟩ [] "i" "t").1
      (Or.inr (by decide))
  · exact (create_validator_matches_spec ⟨none, none, .undef, .undef⟩ [] "i" "t").2.2
      (by decide)

/-- C2: a create or update that fails validation leaves the stored
collection exactly as it was.  -/
theorem invalid_write_preserves_state (bs : List Bookmark) (p : Payload)
    (newId now idv e : String) :
    ((create bs p newId now).2 = .invalid e → (create bs p newId now).1 = bs) ∧
    ((update bs idv p).2 = .invalid e → (update bs idv p).1 = bs) := by
  refine ⟨fun h => ?_, fun h => ?_⟩
  · by_cases hv : (validateCreate p).isEmpty
    · simp [create, hv] at h
    · simp [create, hv]
  · rcases hfi : findIndex (fun b => b.id = idv) bs with _ | i
    · simp [update, hfi]
    · by_cases hv : (validateUpdate p).isEmpty
      · simp [update, hfi, hv] at h
      · simp [update, hfi, hv]

/-- C2 witness: a create with no fields and an update that empties the
title both fail validation and leave a concrete store unchanged.  -/
theorem invalid_write_preserves_state_witness :
    (create [] ⟨none, none, .undef, .undef⟩ "i" "t").1 = [] ∧
    (update [bmX] "1" ⟨none, some "", .undef, .undef⟩).1 = [bmX] :=
  ⟨(invalid_write_preserves_state [] ⟨none, none, .undef, .undef⟩ "i" "t" "x"
      "URL is required, Title is required").1 (by decide),
   (invalid_write_preserves_state [bmX] ⟨none, some "", .undef, .undef⟩ "i" "t" "1"
      "Title is required").2 (by decide)⟩

/-- C4, counterexample: with the supplied filter value "" the route
returns the whole collection, not the bookmarks whose tags sequence
contains the lowercased filter (here there are none), so the claim
fails for the empty filter value.  -/
theorem list_empty_filter_cex :
    listBookmarks [bmX] (some "") = [bmX] ∧
    List.filter (fun b => tagMatches b.tags (jsToLower "")) [bmX] = [] := by
  constructor
  · rfl
  · decide

/-- C4, amended: for every non-empty filter value the route returns
exactly the bookmarks whose tags sequence contains the lowercased
filter, in collection order; with no filter — and likewise with a
supplied empty filter value — it returns the whole collection,
unpaginated and unsorted.  -/
theorem list_filter_semantics (bs : List Bookmark) (t : String) (ht : t ≠ "") :
    listBookmarks bs (some t) = bs.filter (fun b => tagMatches b.tags (jsToLower t)) ∧
    (∀ b, b ∈ listBookmarks bs (some t) ↔ b ∈ bs ∧ tagMatches b.tags (jsToLower t) = true) ∧
    (∀ b : Bookmark, tagMatches b.tags (jsToLower t) = true ↔
        ∃ ts, b.tags = .arr ts ∧ jsToLower t ∈ ts) ∧
    List.Sublist (listBookmarks bs (some t)) bs ∧
    listBookmarks bs none = bs := by
  have heq : listBookmarks bs (some t)
      = bs.filter (fun b => tagMatches b.tags (jsToLower t)) := by
    simp [listBookmarks, ht]
  refine ⟨heq, fun b => ?_, fun b => ?_, ?_, rfl⟩
  · rw [heq]
    simp [List.mem_filter]
  · cases hg : b.tags with
    | arr ts => simp [tagMatches, hg, List.elem_iff]
    | undef => simp [tagMatches, hg]
    | null => simp [tagMatches, hg]
    | other tb => simp [tagMatches, hg]
  · rw [heq]
    exact List.filter_sublist bs

/-- C4 witness: with two seeded records tagged
`["react", "javascript"]` and `["nodejs"]`, filtering by "react"
returns exactly the first.  -/
theorem list_filter_semantics_witness :
    listBookmarks
        [{ id := "1", url := "https://example.com", title := "Example",
           description := .undef, tags := .arr ["react", "javascript"], createdAt := "t1" },
         { id := "2", url := "https://test.com", title := "Test",
           description := .undef, tags := .arr ["nodejs"], createdAt := "t2" }]
        (some "react")
      = [{ id := "1", url := "https://example.com", title := "Example",
           description := .undef, tags := .arr ["react", "javascript"], createdAt := "t1" }] := by
  rw [(list_filter_semantics
    [{ id := "1", url := "https://example.com", title := "Example",
       description := .undef, tags := .arr ["react", "javascript"], createdAt := "t1" },
     { id := "2", url := "https://test.com", title := "Test",
       description := .undef, tags := .arr ["nodejs"], createdAt := "t2" }]
    "react" (by decide)).1]
  decide

/-- C7, counterexample: on a fetch failure the metadata route answers
200 with the placeholder string "Unable to fetch title" as
`data.title`, not with a null title.  -/
theorem metadata_null_title_cex :
    getMetadata (some "https://example.com") .fetchError
      = .ok (some "Unable to fetch title") ∧
    getMetadata (some "https://example.com") .fetchError ≠ .ok none := by
  constructor
  · rfl
  · decide

/-- C7, amended: when the fetch for a syntactically valid, non-empty
url fails (network error, timeout, or no usable title in the page),
the metadata route returns a 200 success whose `data.title` is the
placeholder string "Unable to fetch title" — never null — and for any
fetch outcome whatsoever the route answers a 200 success, never an
error.  -/
theorem metadata_failure_degrades (u : String) (r : FetchResult)
    (hu : isValidUrl u = true) (hne : u ≠ "") :
    (fetchMetadata r = none →
        getMetadata (some u) r = .ok (some "Unable to fetch title")) ∧
    ∃ t, getMetadata (some u) r = .ok (some t) := by
  have hg : getMetadata (some u) r
      = .ok (some (jsOrStr (fetchMetadata r) "Unable to fetch title")) := by
    simp [getMetadata, hne, hu]
  refine ⟨fun hf => ?_, ⟨_, hg⟩⟩
  rw [hg, hf]
  rfl

/-- C7 witness: a page in which the title pattern does not match
degrades to the placeholder success response.  -/
theorem metadata_failure_degrades_witness :
    getMetadata (some "https://example.com") (FetchResult.fetched none)
      = MetaResponse.ok (some "Unable to fetch title") :=
  (metadata_failure_degrades "https://example.com" (.fetched none)
    (by decide) (by decide)).1 (by decide)

/-- C10: an update or delete naming an id absent from the store
returns NotFound and leaves the collection unchanged, for every
payload, valid or not: the lookup precedes validation and mutation.  -/
theorem unknown_id_noop (bs : List Bookmark) (idv : String) (p : Payload)
    (h : ∀ b ∈ bs, b.id ≠ idv) :
    (update bs idv p).1 = bs ∧ (update bs idv p).2 = .notFound ∧
    (deleteOp bs idv).1 = bs ∧ (deleteOp bs idv).2 = .notFound := by
  have hfi : findIndex (fun b => b.id = idv) bs = none := by
    rw [findIndex_eq_none_iff]
    intro b hb
    simp [h b hb]
  simp [update, deleteOp, hfi]

/-- C10 witness: on a one-record store, an unknown-id update carrying
an invalid payload and an unknown-id delete both return NotFound and
change nothing.  -/
theorem unknown_id_noop_witness :
    (update [bmX] "zzz" ⟨none, some "", .undef, .undef⟩).2 = .notFound ∧
    (deleteOp [bmX] "zzz").1 = [bmX] := by
  have h := unknown_id_noop [bmX] "zzz" ⟨none, some "", .undef, .undef⟩ (by decide)
  exact ⟨h.2.1, h.2.2.1⟩

/-- C3: a successful update writes back exactly the merged record at
the found index; the merge keeps `id` and `createdAt`, takes each
supplied field verbatim from the payload, and keeps each unsupplied
field of the stored record byte for byte.  -/
theorem update_frame (bs : List Bookmark) (idv : String) (p : Payload)
    (b' : Bookmark) (h : (update bs idv p).2 = .ok b') :
    ∃ i old, findIndex (fun b => b.id = idv) bs = some i ∧
      bs.getD i default = old ∧
      (update bs idv p).1 = bs.set i b' ∧
      b'.id = old.id ∧ b'.createdAt = old.createdAt ∧
      (p.url = none → b'.url = old.url) ∧
      (∀ u, p.url = some u → b'.url = u) ∧
      (p.title = none → b'.title = old.title) ∧
      (∀ t, p.title = some t → b'.title = t) ∧
      (p.description = .undef → b'.description = old.description) ∧
      (p.description ≠ .undef → b'.description = p.description) ∧
      (p.tags = .undef → b'.tags = old.tags) ∧
      (p.tags ≠ .undef → b'.tags = p.tags) := by
  obtain ⟨i, hfi, -, hb, hset⟩ := update_ok_inv h
  refine ⟨i, bs.getD i default, hfi, rfl, hset, ?_⟩
  subst hb
  refine ⟨rfl, rfl, ?_, ?_, ?_, ?_, ?_, ?_, ?_, ?_⟩
  · intro hu
    simp [mergeBookmark, hu]
  · intro u hu
    simp [mergeBookmark, hu]
  · intro htt
    simp [mergeBookmark, htt]
  · intro t htt
    simp [mergeBookmark, htt]
  · intro hd
    simp [mergeBookmark, hd, DescField.defined]
  · intro hd
    have hdd : DescField.defined p.description = true := by
      cases hdc : p.description with
      | undef => exact absurd hdc hd
      | null => rfl
      | str ds => rfl
    simp [mergeBookmark, hdd]
  · intro hg
    simp [mergeBookmark, hg, TagsField.defined]
  · intro hg
    have hdt : TagsField.defined p.tags = true := by
      cases hgc : p.tags with
      | undef => exact absurd hgc hg
      | null => rfl
      | arr ts => rfl
      | other tb => rfl
    simp [mergeBookmark, hdt]

/-- C3 witness: a description-only update of a one-record store writes
back the record with only the description replaced.  -/
theorem update_frame_witness :
    (update [bmX] "1" ⟨none, none, .str "new", .undef⟩).1
      = [bmX].set 0 { bmX with description := DescField.str "new" } := by
  obtain ⟨i, old, hfi, -, hset, -⟩ :=
    update_frame [bmX] "1" ⟨none, none, .str "new", .undef⟩
      { bmX with description := .str "new" } (by decide)
  obtain rfl : i = 0 := by
    have h0 : findIndex (fun b => b.id = "1") [bmX] = some 0 := by decide
    rw [h0] at hfi
    injection hfi with h2
    omega
  exact hset

/-- C5, counterexample: the payload supplying the empty string as
description is valid and create succeeds, but the stored record omits
the description (`description || undefined`), so its description field
does not equal the one supplied in the payload.  -/
theorem create_echo_cex :
    (create [] ⟨some "https://example.com", some "T", .str "", .undef⟩ "id1" "t1").2
      = .ok { id := "id1", url := "https://example.com", title := "T",
              description := .undef, tags := .undef, createdAt := "t1" } ∧
    (create [] ⟨some "https://example.com", some "T", .str "", .undef⟩ "id1" "t1").2
      ≠ .ok { id := "id1", url := "https://example.com", title := "T",
              description := .str "", tags := .undef, createdAt := "t1" } := by
  constructor
  · rfl
  · decide

/-- C5, amended: after a successful create with a fresh id, listing
the store yields exactly one record with the new id; its url and title
equal the payload, its id and createdAt are the generated ones, and
its description and tags equal the payload values when those were
supplied truthy, and are omitted when the payload value was absent or
falsy (for example an empty-string description).  -/
theorem create_then_list (bs : List Bookmark) (p : Payload) (newId now : String)
    (b' : Bookmark) (h : (create bs p newId now).2 = .ok b')
    (hfresh : ∀ b ∈ bs, b.id ≠ newId) :
    (listBookmarks (create bs p newId now).1 none).filter (fun b => b.id = newId)
      = [b'] ∧
    b'.id = newId ∧ b'.createdAt = now ∧
    p.url = some b'.url ∧ p.title = some b'.title ∧
    (DescField.truthy p.description = true → b'.description = p.description) ∧
    (DescField.truthy p.description = false → b'.description = .undef) ∧
    (TagsField.truthy p.tags = true → b'.tags = p.tags) ∧
    (TagsField.truthy p.tags = false → b'.tags = .undef) := by
  obtain ⟨hval, hb, hst⟩ := create_ok_inv h
  obtain ⟨hurl, htitle, -, -⟩ := validateCreate_eq_nil hval
  obtain ⟨u, hu, -, -⟩ := urlErrorsCreate_eq_nil hurl
  obtain ⟨t, htt⟩ := titleErrorsCreate_eq_nil htitle
  subst hb
  refine ⟨?_, rfl, rfl, ?_, ?_, ?_, ?_, ?_, ?_⟩
  · rw [hst]
    show ((bs ++ [newBookmark p newId now]).filter (fun b => b.id = newId)) = _
    rw [List.filter_append]
    have h1 : bs.filter (fun b => decide (b.id = newId)) = [] := by
      rw [List.filter_eq_nil_iff]
      intro b hb2
      simp [hfresh b hb2]
    rw [h1]
    simp [newBookmark]
  · rw [hu]
    simp [newBookmark, hu]
  · rw [htt]
    simp [newBookmark, htt]
  · intro hd
    simp [newBookmark, hd]
  · intro hd
    simp [newBookmark, hd]
  · intro hg
    simp [newBookmark, hg]
  · intro hg
    simp [newBookmark, hg]

/-- C5 witness: creating a full sample payload in the empty store and
listing yields exactly the one new record.  -/
theorem create_then_list_witness :
    (listBookmarks (create [] pSample "id9" "t9").1 none).filter (fun b => b.id = "id9")
      = [{ id := "id9", url := "https://example.com", title := "Test",
           description := DescField.str "A test bookmark",
           tags := TagsField.arr ["test", "example"], createdAt := "t9" }] :=
  (create_then_list [] pSample "id9" "t9"
    { id := "id9", url := "https://example.com", title := "Test",
      description := .str "A test bookmark",
      tags := .arr ["test", "example"], createdAt := "t9" }
    (by decide) (by decide)).1

/-- C6: in every store state reachable from the seeded collection
under any sequence of create, update and delete calls, every stored
tags field is either absent or an array of at most five tags, each
equal to its own lowercase form.  -/
theorem reachable_tags_invariant (bs : List Bookmark) (h : Reachable bs) :
    ∀ b ∈ bs, tagsWF b.tags := by
  induction h with
  | seed ids times =>
    intro b hb
    simp only [seedBookmarks, List.mem_cons, List.not_mem_nil, or_false] at hb
    rcases hb with rfl | rfl | rfl | rfl | rfl <;>
      exact Or.inr ⟨_, rfl, by decide, by decide⟩
  | createStep bs p newId now hr ih =>
    intro b hb
    rw [create_fst] at hb
    by_cases hv : (validateCreate p).isEmpty
    · rw [if_pos hv] at hb
      rcases List.mem_append.mp hb with hb | hb
      · exact ih b hb
      · have hbeq : b = newBookmark p newId now := by simpa using hb
        subst hbeq
        by_cases htr : TagsField.truthy p.tags
        · obtain ⟨ts, harr, hlen, hlow⟩ :=
            tagErrorsCreate_eq_nil
              (validateCreate_eq_nil (List.isEmpty_iff.mp hv)).2.2.2 htr
          exact Or.inr ⟨ts, by simp [newBookmark, htr, harr, TagsField.truthy], hlen, hlow⟩
        · exact Or.inl (by simp [newBookmark, htr])
    · rw [if_neg hv] at hb
      exact ih b hb
  | updateStep bs idv p hr ih =>
    intro b hb
    rw [update_fst] at hb
    rcases hfi : findIndex (fun b => b.id = idv) bs with _ | i
    · rw [hfi] at hb
      exact ih b hb
    · rw [hfi] at hb
      have hb2 : b ∈ (if (validateUpdate p).isEmpty
          then bs.set i (mergeBookmark (bs.getD i default) p) else bs) := hb
      by_cases hv : (validateUpdate p).isEmpty
      · rw [if_pos hv] at hb2
        rcases List.mem_or_eq_of_mem_set hb2 with hb3 | hbeq
        · exact ih b hb3
        · subst hbeq
          by_cases hdef : TagsField.defined p.tags
          · obtain ⟨ts, harr, hlen, hlow⟩ :=
              tagErrorsUpdate_eq_nil
                (validateUpdate_eq_nil (List.isEmpty_iff.mp hv)).2.2.2 hdef
            exact Or.inr ⟨ts, by simp [mergeBookmark, hdef, harr, TagsField.defined], hlen, hlow⟩
          · have hold : bs.getD i default ∈ bs :=
              getD_mem bs i default (findIndex_lt_length hfi)
            have htags : (mergeBookmark (bs.getD i default) p).tags
                = (bs.getD i default).tags := by
              simp [mergeBookmark, hdef]
            rw [htags]
            exact ih _ hold
      · rw [if_neg hv] at hb2
        exact ih b hb2
  | deleteStep bs idv hr ih =>
    intro b hb
    rw [deleteOp_fst] at hb
    rcases hfi : findIndex (fun b => b.id = idv) bs with _ | i
    · rw [hfi] at hb
      exact ih b hb
    · rw [hfi] at hb
      exact ih b ((List.eraseIdx_sublist bs i).subset hb)

/-- C6 witness: the first seeded record, in the seeded state, carries
a well-formed tags array.  -/
theorem reachable_tags_invariant_witness :
    tagsWF (TagsField.arr ["react", "javascript", "frontend"]) :=
  reachable_tags_invariant (seedBookmarks [] []) (Reachable.seed [] [])
    { id := "", url := "https://react.dev", title := "React Documentation",
      description := .str "Official React documentation and tutorials",
      tags := .arr ["react", "javascript", "frontend"], createdAt := "" }
    (by simp [seedBookmarks])

/-- C8: the update validator never emits "URL is required" for any
payload; a supplied url is checked exactly for syntactic validity,
emitting "URL must be valid" iff it fails; an absent url is never
url-checked; and, in contrast, an explicitly empty title on update
does fail with "Title is required".  -/
theorem update_url_validation (p : Payload) :
    ("URL is required" ∉ validateUpdate p) ∧
    (p.url = none → "URL must be valid" ∉ validateUpdate p) ∧
    (∀ u, p.url = some u →
        ("URL must be valid" ∈ validateUpdate p ↔ isValidUrl u = false)) ∧
    validateUpdate ⟨none, some "", .undef, .undef⟩ = ["Title is required"] := by
  refine ⟨?_, ?_, ?_, by decide⟩
  · intro hmem
    rcases (mem_validateUpdate p _).mp hmem with h | h | h | h
    · obtain ⟨he, -⟩ := mem_urlErrorsUpdate.mp h
      exact absurd he (by decide)
    · rcases mem_titleErrorsUpdate h with he | he <;> exact absurd he (by decide)
    · exact absurd (mem_descErrors h) (by decide)
    · rcases mem_tagErrorsUpdate h with he | he | he <;> exact absurd he (by decide)
  · intro hnone hmem
    rcases (mem_validateUpdate p _).mp hmem with h | h | h | h
    · obtain ⟨-, x, hx, -⟩ := mem_urlErrorsUpdate.mp h
      rw [hnone] at hx
      cases hx
    · rcases mem_titleErrorsUpdate h with he | he <;> exact absurd he (by decide)
    · exact absurd (mem_descErrors h) (by decide)
    · rcases mem_tagErrorsUpdate h with he | he | he <;> exact absurd he (by decide)
  · intro u hu
    constructor
    · intro hmem
      rcases (mem_validateUpdate p _).mp hmem with h | h | h | h
      · obtain ⟨-, x, hx, hvx⟩ := mem_urlErrorsUpdate.mp h
        rw [hu] at hx
        obtain rfl : u = x := by injection hx
        exact hvx
      · rcases mem_titleErrorsUpdate h with he | he <;> exact absurd he (by decide)
      · exact absurd (mem_descErrors h) (by decide)
      · rcases mem_tagErrorsUpdate h with he | he | he <;> exact absurd he (by decide)
    · intro hvu
      exact (mem_validateUpdate p _).mpr
        (Or.inl (mem_urlErrorsUpdate.mpr ⟨rfl, u, hu, hvu⟩))

/-- C8 witness: an explicitly empty url on update draws "URL must be
valid" and never "URL is required".  -/
theorem update_url_validation_witness :
    "URL must be valid" ∈ validateUpdate ⟨some "", none, .undef, .undef⟩ ∧
    "URL is required" ∉ validateUpdate ⟨some "", none, .undef, .undef⟩ := by
  have h := update_url_validation ⟨some "", none, .undef, .undef⟩
  exact ⟨(h.2.2.1 "" rfl).mpr (by decide), h.1⟩

/-- C9, counterexample: an update whose payload explicitly supplies a
null description succeeds and returns (and stores) a record whose
description is JSON null, so a null optional field does reach API
output.  -/
theorem update_null_description_cex :
    (update [bmX] "1" ⟨none, none, .null, .undef⟩).2
      = .ok { bmX with description := DescField.null } ∧
    ¬ noNullOpt { bmX with description := DescField.null } := by
  constructor
  · decide
  · intro h
    exact h.1 rfl

/-- C9, amended: over any store whose records carry no null optional
fields, list, create and delete return only records with no null
optional fields, and so does update whenever its payload does not
explicitly supply a null description; the one exception is an update
payload with `description: null`, which stores and returns a null
description (a supplied null tags value instead fails validation and
can never be stored).  -/
theorem no_null_optional_fields (bs : List Bookmark) (p : Payload)
    (idv newId now : String) (tag : Option String)
    (hwf : ∀ b ∈ bs, noNullOpt b) :
    (∀ b ∈ listBookmarks bs tag, noNullOpt b) ∧
    (∀ b', (create bs p newId now).2 = .ok b' → noNullOpt b') ∧
    (∀ b', (update bs idv p).2 = .ok b' → p.description ≠ .null → noNullOpt b') ∧
    (∀ b', (deleteOp bs idv).2 = .ok b' → noNullOpt b') := by
  refine ⟨fun b hb => hwf b (mem_of_mem_listBookmarks hb),
    fun b' h => ?_, fun b' h hd => ?_, fun b' h => ?_⟩
  · obtain ⟨-, hb, -⟩ := create_ok_inv h
    subst hb
    unfold noNullOpt
    constructor
    · by_cases ht : DescField.truthy p.description
      · have hne : p.description ≠ .null := by
          cases hc : p.description with
          | null => rw [hc] at ht; cases ht
          | undef => rw [hc] at ht; cases ht
          | str ds => simp [hc]
        simpa [newBookmark, ht] using hne
      · simp [newBookmark, ht]
    · by_cases ht : TagsField.truthy p.tags
      · have hne : p.tags ≠ .null := by
          cases hc : p.tags with
          | null => rw [hc] at ht; cases ht
          | undef => rw [hc] at ht; cases ht
          | arr ts => simp [hc]
          | other tb => simp [hc]
        simpa [newBookmark, ht] using hne
      · simp [newBookmark, ht]
  · obtain ⟨i, hfi, hval, hb, -⟩ := update_ok_inv h
    subst hb
    have hold := hwf _ (getD_mem bs i default (findIndex_lt_length hfi))
    unfold noNullOpt
    constructor
    · by_cases hdd : DescField.defined p.description
      · simpa [mergeBookmark, hdd] using hd
      · simpa [mergeBookmark, hdd] using hold.1
    · by_cases hdt : TagsField.defined p.tags
      · obtain ⟨ts, harr, -, -⟩ :=
          tagErrorsUpdate_eq_nil (validateUpdate_eq_nil hval).2.2.2 hdt
        simp [mergeBookmark, hdt, harr, TagsField.defined]
      · simpa [mergeBookmark, hdt] using hold.2
  · obtain ⟨i, hfi, hb, -⟩ := deleteOp_ok_inv h
    subst hb
    exact hwf _ (getD_mem bs i default (findIndex_lt_length hfi))

/-- C9 witness: the record created from the sample payload in the
empty store has no null optional fields.  -/
theorem no_null_optional_fields_witness :
    noNullOpt (newBookmark pSample "id9" "t9") :=
  (no_null_optional_fields [] pSample "x" "id9" "t9" none (by simp)).2.1
    (newBookmark pSample "id9" "t9") (by decide)

end BookmarkManager
